import Mathlib

/-!
Shallow embedding of the controlled TypeScript system of
`ControlledTypeScriptSystem.ts` (watcher registries, deleted-file tracker,
deferred task queue, notification dispatch) and of the host watcher adapter
`src/hooks/getWatcher.ts`.

Callbacks are modelled by their JS reference identity (a `Nat`); invoking a
watcher is recorded as an event in a trace.  JS `Map`s are association lists
with `Map.get` / `Map.set` / `Map.delete` semantics.  The passive file system
(the content store) is external to the embedded module; its `normalizePath`
is modelled as the identity, paths being taken as already-normalized keys,
and store mutations (content writes, stat updates) are not modelled since no
notification depends on them.
-/

namespace CTS

abbrev Path := String

abbrev Callback := Nat

/-- `Map.get`: the value stored under the first (and, for states reachable by
`Map.set`, only) occurrence of the key. -/
def mapGet {α : Type} : List (Path × α) → Path → Option α
  | [], _ => none
  | (k', v) :: rest, k => if k' = k then some v else mapGet rest k

/-- `Map.set`: replace in place when the key is present, append otherwise. -/
def mapSet {α : Type} : List (Path × α) → Path → α → List (Path × α)
  | [], k, v => [(k, v)]
  | (k', v') :: rest, k, v =>
    if k' = k then (k, v) :: rest else (k', v') :: mapSet rest k v

/-- `Map.delete`: drop the key's entry (keys are unique in reachable states,
so dropping every occurrence coincides with `Map.delete` there). -/
def mapDelete {α : Type} (m : List (Path × α)) (k : Path) : List (Path × α) :=
  m.filter (fun e => e.1 ≠ k)

/-- `map.get(k)` read with a default, as JS truthiness tests do
(`undefined` and the default both read as the default). -/
def mapGetD {α : Type} (m : List (Path × α)) (k : Path) (d : α) : α :=
  (mapGet m k).getD d

theorem mapGet_mapSet_self {α : Type} (m : List (Path × α)) (k : Path) (v : α) :
    mapGet (mapSet m k v) k = some v := by
  induction m with
  | nil => simp [mapGet, mapSet]
  | cons e rest ih =>
    by_cases h : e.1 = k
    · simp [mapSet, h, mapGet]
    · simp [mapSet, h, mapGet, ih]

theorem mapGet_mapSet_ne {α : Type} (m : List (Path × α)) (k k' : Path) (v : α)
    (h : k ≠ k') : mapGet (mapSet m k v) k' = mapGet m k' := by
  induction m with
  | nil => simp [mapGet, mapSet, h]
  | cons e rest ih =>
    by_cases he : e.1 = k
    · simp [mapSet, he, mapGet, h]
    · simp [mapSet, he, mapGet, ih]

theorem mapGet_mapDelete_self {α : Type} (m : List (Path × α)) (k : Path) :
    mapGet (mapDelete m k) k = none := by
  induction m with
  | nil => simp [mapDelete, mapGet]
  | cons e rest ih =>
    by_cases h : e.1 = k
    · simpa [mapDelete, h] using ih
    · simpa [mapDelete, h, mapGet] using ih

/-! ### Node `posix.dirname`

A faithful model of Node's `path.posix.dirname`, the function the dispatch
code imports; `findSlashEnd` is its backwards scan for the slash that ends
the parent prefix (`end` in the Node source), run over the reversed
character list with the current string index carried alongside. -/

def findSlashEnd : List Char → Nat → Bool → Option Nat
  | _, 0, _ => none
  | [], _ + 1, _ => none
  | c :: rest, i + 1, matchedSlash =>
    if c = '/' then
      if matchedSlash then findSlashEnd rest i true else some (i + 1)
    else findSlashEnd rest i false

def dirname (p : Path) : Path :=
  if p.length = 0 then "." else
  let cs := p.data
  let hasRoot : Bool := cs.head? = some '/'
  match findSlashEnd cs.reverse (cs.length - 1) true with
  | none => if hasRoot then "/" else "."
  | some e => if hasRoot ∧ e = 1 then "//" else ⟨cs.take e⟩

/-! ### Watcher registry -/

inductive FileWatcherEventKind : Type where
  | Created
  | Changed
  | Deleted
deriving DecidableEq

/-- One recorded watcher invocation: which callback identity was called,
with which arguments. -/
inductive Event : Type where
  | fileEvent (cb : Callback) (path : Path) (kind : FileWatcherEventKind)
  | dirEvent (cb : Callback) (path : Path)
deriving DecidableEq

def Event.isDir : Event → Bool
  | .dirEvent _ _ => true
  | .fileEvent _ _ _ => false

def Event.isFileEv : Event → Bool
  | .dirEvent _ _ => false
  | .fileEvent _ _ _ => true

abbrev WMap := List (Path × List Callback)

/-- `createWatcher`'s registration step: `watchersMap.set(path,
[...watchers, callback])` — a fresh array with the callback appended. -/
def createWatcher (watchersMap : WMap) (path : Path) (callback : Callback) :
    WMap :=
  let watchers := (mapGet watchersMap path).getD []
  mapSet watchersMap path (watchers ++ [callback])

/-- The `close` closure a `createWatcher` handle holds: filter the current
list by callback identity, pruning the entry when nothing is left. -/
def closeWatcher (watchersMap : WMap) (path : Path) (callback : Callback) :
    WMap :=
  let watchers := (mapGet watchersMap path).getD []
  let nextWatchers := watchers.filter (fun w => w ≠ callback)
  if nextWatchers.length > 0 then mapSet watchersMap path nextWatchers
  else mapDelete watchersMap path

/-- `invokeFileWatchers`: call every callback registered for the exact path,
in array order, recording the trace. -/
def invokeFileWatchers (m : WMap) (path : Path)
    (event : FileWatcherEventKind) : List Event :=
  match mapGet m path with
  | some fileWatchers => fileWatchers.map (fun cb => Event.fileEvent cb path event)
  | none => []

/-- The `while (directory !== posix.dirname(directory))` walk of
`invokeDirectoryWatchers`, firing recursive directory watchers at each
visited ancestor.  The walk shortens `directory` on every iteration, so
`directory.length + 2` fuel is always enough; the fuel only makes the
recursion structural. -/
def recursiveWalk (rwm : WMap) (path : Path) : Nat → Path → List Event
  | 0, _ => []
  | fuel + 1, directory =>
    if directory = dirname directory then []
    else
      (match mapGet rwm directory with
       | some ws => ws.map (fun cb => Event.dirEvent cb path)
       | none => []) ++ recursiveWalk rwm path fuel (dirname directory)

/-- `invokeDirectoryWatchers`: non-recursive watchers registered exactly on
`dirname path`, then the recursive-watcher ancestor walk. -/
def invokeDirectoryWatchers (dwm rwm : WMap) (path : Path) : List Event :=
  let directory := dirname path
  (match mapGet dwm directory with
   | some ws => ws.map (fun cb => Event.dirEvent cb path)
   | none => []) ++ recursiveWalk rwm path (directory.length + 2) directory

/-! ### Controlled system state and façade operations -/

/-- The watcher registries and the deleted-file tracker of one controlled
system instance (`fileWatchersMap`, `directoryWatchersMap`,
`recursiveDirectoryWatchersMap`, `deletedFiles`). -/
structure SysState : Type where
  fileWatchersMap : WMap
  directoryWatchersMap : WMap
  recursiveDirectoryWatchersMap : WMap
  deletedFiles : List (Path × Bool)
deriving DecidableEq

/-- The passive file system's path normalization is external to the embedded
module; paths are taken as already-normalized keys. -/
def normalizePath (p : Path) : Path := p

/-- `invokeFileChanged`: directory notification first, then — depending on
the deleted mark — a `Created` notification that clears the mark, or a
`Changed` notification. -/
def invokeFileChanged (s : SysState) (path : Path) : SysState × List Event :=
  let normalizedPath := normalizePath path
  let dirEvents := invokeDirectoryWatchers s.directoryWatchersMap
    s.recursiveDirectoryWatchersMap normalizedPath
  if mapGetD s.deletedFiles normalizedPath false then
    ({ s with deletedFiles := mapSet s.deletedFiles normalizedPath false },
      dirEvents ++
        invokeFileWatchers s.fileWatchersMap normalizedPath .Created)
  else
    (s, dirEvents ++
      invokeFileWatchers s.fileWatchersMap normalizedPath .Changed)

/-- `invokeFileDeleted`: when the path is not already marked deleted, a
directory notification plus a file `Deleted` notification, then the mark is
set; otherwise nothing happens. -/
def invokeFileDeleted (s : SysState) (path : Path) : SysState × List Event :=
  let normalizedPath := normalizePath path
  if mapGetD s.deletedFiles normalizedPath false then (s, [])
  else
    ({ s with deletedFiles := mapSet s.deletedFiles normalizedPath true },
      invokeDirectoryWatchers s.directoryWatchersMap
        s.recursiveDirectoryWatchersMap normalizedPath ++
        invokeFileWatchers s.fileWatchersMap normalizedPath .Deleted)

/-- `writeFile`: the store write (not modelled — no notification reads the
store) followed by `invokeFileChanged`. -/
def writeFile (s : SysState) (path : Path) : SysState × List Event :=
  invokeFileChanged s path

/-- `deleteFile`: the store removal (not modelled) followed by
`invokeFileDeleted`. -/
def deleteFile (s : SysState) (path : Path) : SysState × List Event :=
  invokeFileDeleted s path

/-- `setModifiedTime`: `updateTimes` on the store (not modelled), then a
directory notification and a file `Changed` notification — the deleted-file
tracker is neither consulted nor updated. -/
def setModifiedTime (s : SysState) (path : Path) : SysState × List Event :=
  (s, invokeDirectoryWatchers s.directoryWatchersMap
    s.recursiveDirectoryWatchersMap (normalizePath path) ++
    invokeFileWatchers s.fileWatchersMap (normalizePath path) .Changed)

/-- `watchFile`: register on the file-watchers registry. -/
def watchFile (s : SysState) (path : Path) (cb : Callback) : SysState :=
  { s with fileWatchersMap :=
      createWatcher s.fileWatchersMap (normalizePath path) cb }

/-- `watchDirectory`: the `recursive` flag selects the target registry. -/
def watchDirectory (s : SysState) (path : Path) (cb : Callback)
    (recursive : Bool) : SysState :=
  if recursive then
    { s with recursiveDirectoryWatchersMap :=
        createWatcher s.recursiveDirectoryWatchersMap (normalizePath path) cb }
  else
    { s with directoryWatchersMap :=
        createWatcher s.directoryWatchersMap (normalizePath path) cb }

/-! ### Reentrant file notification

`invokeFileWatchers` reads the callback array once and `forEach`-iterates
that array; a callback that re-enters `createWatcher` / `close` replaces the
map entry with a *fresh* array, never mutating the iterated one.  This model
makes the reentrancy explicit: `act` is what a callback, by identity, does to
the file-watchers map when invoked, and the fold threads the map while
iterating the snapshot. -/
def invokeFileWatchersReentrant (act : Callback → WMap → WMap) (m : WMap)
    (path : Path) : WMap × List Callback :=
  match mapGet m path with
  | some fileWatchers =>
    fileWatchers.foldl (fun acc cb => (act cb acc.1, acc.2 ++ [cb])) (m, [])
  | none => (m, [])

/-! ### Deferred task queue

`setTimeout` wraps the callback in `setImmediate(() => { callback(...args);
timeoutCallbacks.delete(timeoutId); })` and adds the id to the
`timeoutCallbacks` set; `waitForQueued` loops `while (timeoutCallbacks.size >
0) await new Promise(resolve => setImmediate(resolve))`.  The single-threaded
immediate queue is modelled operationally: a queue item is either a scheduled
task or the drain loop's resolver probe, and one `step` runs the item at the
head of the queue.  A task's callback is abstracted to what it can do that
the queue observes: schedule child tasks, then possibly throw. -/

inductive TaskSpec : Type where
  | mk (children : List TaskSpec) (throws : Bool)

def TaskSpec.children : TaskSpec → List TaskSpec
  | .mk c _ => c

def TaskSpec.throws : TaskSpec → Bool
  | .mk _ t => t

inductive QItem : Type where
  | task (id : Nat) (spec : TaskSpec)
  | drainProbe

/-- `queue` is the immediate queue in order; `timeoutCallbacks` the pending
set; `fired` records, in order, the ids whose callbacks have started;
`drainResolved` whether `waitForQueued`'s promise has resolved. -/
structure QueueState : Type where
  queue : List QItem
  timeoutCallbacks : List Nat
  nextId : Nat
  fired : List Nat
  drainResolved : Bool

def setAdd (s : List Nat) (x : Nat) : List Nat :=
  if x ∈ s then s else s ++ [x]

def setDelete (s : List Nat) (x : Nat) : List Nat :=
  s.filter (fun i => i ≠ x)

/-- `setTimeout`: queue the wrapped callback as an immediate and add the
fresh id to the pending set; returns the id. -/
def schedule (q : QueueState) (spec : TaskSpec) : QueueState × Nat :=
  let timeoutId := q.nextId
  ({ q with queue := q.queue ++ [QItem.task timeoutId spec],
            timeoutCallbacks := setAdd q.timeoutCallbacks timeoutId,
            nextId := timeoutId + 1 }, timeoutId)

def QItem.keepOnClear (id : Nat) : QItem → Bool
  | QItem.task id' _ => id' ≠ id
  | QItem.drainProbe => true

/-- `clearTimeout`: `clearImmediate` drops the queued immediate and the id
leaves the pending set. -/
def clearScheduled (q : QueueState) (id : Nat) : QueueState :=
  { q with queue := q.queue.filter (QItem.keepOnClear id),
           timeoutCallbacks := setDelete q.timeoutCallbacks id }

/-- The callback body as the queue sees it: schedule each child in order. -/
def scheduleAll (q : QueueState) (children : List TaskSpec) : QueueState :=
  children.foldl (fun acc c => (schedule acc c).1) q

/-- The immediate wrapper around a task's callback: run the callback (it
schedules its children, then possibly throws); only on normal completion is
the id deleted from the pending set — the `delete` is written *after* the
callback call. -/
def runTaskWrapper (q : QueueState) (id : Nat) (spec : TaskSpec) :
    QueueState :=
  let q1 := scheduleAll q spec.children
  if spec.throws then q1
  else { q1 with timeoutCallbacks := setDelete q1.timeoutCallbacks id }

/-- One turn of the event loop: run the queue's head item.  A drain probe
re-checks the pending set; while it is non-empty the drain loop queues a
fresh probe at the back, and when it is observed empty the drain resolves. -/
def step (q : QueueState) : QueueState :=
  match q.queue with
  | [] => q
  | QItem.task id spec :: rest =>
    runTaskWrapper { q with queue := rest, fired := q.fired ++ [id] } id spec
  | QItem.drainProbe :: rest =>
    if q.timeoutCallbacks.isEmpty then
      { q with queue := rest, drainResolved := true }
    else { q with queue := rest ++ [QItem.drainProbe] }

/-- Calling `waitForQueued`: the `while` condition is checked at once; when
pending work exists a resolver probe is queued behind it. -/
def startDrain (q : QueueState) : QueueState :=
  if q.timeoutCallbacks.isEmpty then { q with drainResolved := true }
  else { q with queue := q.queue ++ [QItem.drainProbe] }

/-- `n` turns of the event loop. -/
def run : Nat → QueueState → QueueState
  | 0, q => q
  | n + 1, q => run n (step q)

/-! ### Host watcher adapter (`src/hooks/getWatcher.ts`)

A small model of the JavaScript values the adapter can meet: `undefined`,
plain objects with named fields, and watcher objects (webpack's
`EventEmitter`-shaped watcher).  Property access on `undefined` is a
`TypeError`; on an object it yields the field or `undefined`. -/

inductive JSValue : Type where
  | undef
  | obj (fields : List (String × JSValue))
  | watcherObj (id : Nat)

def getField : JSValue → String → Except String JSValue
  | .undef, _ => .error "TypeError"
  | .obj fields, name => .ok ((mapGet fields name).getD .undef)
  | .watcherObj _, _ => .ok .undef

def truthy : JSValue → Bool
  | .undef => false
  | .obj _ => true
  | .watcherObj _ => true

/-- `getWatcher`: `const { watchFileSystem } = compiler; return
watchFileSystem.watcher || (watchFileSystem.wfs && watchFileSystem.wfs.watcher)`,
with JS short-circuit and fault semantics made explicit. -/
def getWatcher (compiler : JSValue) : Except String JSValue :=
  match getField compiler "watchFileSystem" with
  | .error e => .error e
  | .ok watchFileSystem =>
    match getField watchFileSystem "watcher" with
    | .error e => .error e
    | .ok w =>
      if truthy w then .ok w
      else
        match getField watchFileSystem "wfs" with
        | .error e => .error e
        | .ok wfs =>
          if truthy wfs then getField wfs "watcher" else .ok wfs

/-! ### Supporting lemmas -/

theorem mem_setAdd (s : List Nat) (x y : Nat) (h : x ∈ s) : x ∈ setAdd s y := by
  unfold setAdd
  split
  · exact h
  · exact List.mem_append_left _ h

theorem scheduleAll_drainResolved (children : List TaskSpec) (q : QueueState) :
    (scheduleAll q children).drainResolved = q.drainResolved := by
  induction children generalizing q with
  | nil => rfl
  | cons c cs ih =>
    have he : scheduleAll q (c :: cs) = scheduleAll (schedule q c).1 cs := rfl
    rw [he, ih]
    rfl

theorem scheduleAll_mem_timeoutCallbacks (children : List TaskSpec)
    (q : QueueState) (id : Nat) (h : id ∈ q.timeoutCallbacks) :
    id ∈ (scheduleAll q children).timeoutCallbacks := by
  induction children generalizing q with
  | nil => exact h
  | cons c cs ih =>
    have he : scheduleAll q (c :: cs) = scheduleAll (schedule q c).1 cs := rfl
    rw [he]
    exact ih _ (mem_setAdd _ _ _ h)

theorem runTaskWrapper_drainResolved (q : QueueState) (id : Nat)
    (spec : TaskSpec) :
    (runTaskWrapper q id spec).drainResolved = q.drainResolved := by
  unfold runTaskWrapper
  split
  · exact scheduleAll_drainResolved _ _
  · exact scheduleAll_drainResolved _ _

theorem foldlInvoke_snapshot (act : Callback → WMap → WMap)
    (l : List Callback) : ∀ (m : WMap) (acc : List Callback),
    (l.foldl (fun a cb => (act cb a.1, a.2 ++ [cb])) (m, acc)).2 = acc ++ l := by
  induction l with
  | nil => intro m acc; simp
  | cons c cs ih => intro m acc; simp [List.foldl, ih]

theorem Event.isDir_of_dirEvent (cb : Callback) (p : Path) :
    (Event.dirEvent cb p).isDir = true := rfl

theorem recursiveWalk_isDir (rwm : WMap) (p : Path) :
    ∀ (fuel : Nat) (d : Path) (e : Event),
      e ∈ recursiveWalk rwm p fuel d → e.isDir = true := by
  intro fuel
  induction fuel with
  | zero => intro d e he; simp [recursiveWalk] at he
  | succ n ih =>
    intro d e he
    unfold recursiveWalk at he
    split at he
    · simp at he
    · rcases List.mem_append.mp he with h | h
      · cases hm : mapGet rwm d with
        | none => rw [hm] at h; simp at h
        | some ws =>
          rw [hm] at h
          obtain ⟨cb, _, rfl⟩ := List.mem_map.mp h
          rfl
      · exact ih _ _ h

theorem invokeDirectoryWatchers_isDir (dwm rwm : WMap) (p : Path) (e : Event)
    (he : e ∈ invokeDirectoryWatchers dwm rwm p) : e.isDir = true := by
  unfold invokeDirectoryWatchers at he
  rcases List.mem_append.mp he with h | h
  · cases hm : mapGet dwm (dirname p) with
    | none => rw [hm] at h; simp at h
    | some ws =>
      rw [hm] at h
      obtain ⟨cb, _, rfl⟩ := List.mem_map.mp h
      rfl
  · exact recursiveWalk_isDir _ _ _ _ _ h

theorem invokeFileWatchers_isFileEv (m : WMap) (p : Path)
    (k : FileWatcherEventKind) (e : Event)
    (he : e ∈ invokeFileWatchers m p k) : e.isFileEv = true := by
  unfold invokeFileWatchers at he
  cases hm : mapGet m p with
  | none => rw [hm] at he; simp at he
  | some ws =>
    rw [hm] at he
    obtain ⟨cb, _, rfl⟩ := List.mem_map.mp he
    rfl

theorem Event.isDir_eq_false (e : Event) (h : e.isFileEv = true) :
    e.isDir = false := by
  cases e with
  | fileEvent cb p k => rfl
  | dirEvent cb p => simp [Event.isFileEv] at h

theorem Event.isFileEv_eq_false (e : Event) (h : e.isDir = true) :
    e.isFileEv = false := by
  cases e with
  | fileEvent cb p k => simp [Event.isDir] at h
  | dirEvent cb p => rfl

/-- Splitting a trace that is directory events followed by file events:
filtering by event class recovers and re-concatenates it. -/
theorem filter_dir_file_split (A B : List Event)
    (hA : ∀ e ∈ A, e.isDir = true) (hB : ∀ e ∈ B, e.isFileEv = true) :
    ((A ++ B).filter Event.isDir = A) ∧
      ((A ++ B).filter Event.isFileEv = B) := by
  have h1 : A.filter Event.isDir = A := List.filter_eq_self.mpr hA
  have h2 : B.filter Event.isDir = [] :=
    List.filter_eq_nil_iff.mpr fun e he => by
      simp [Event.isDir_eq_false e (hB e he)]
  have h3 : B.filter Event.isFileEv = B := List.filter_eq_self.mpr hB
  have h4 : A.filter Event.isFileEv = [] :=
    List.filter_eq_nil_iff.mpr fun e he => by
      simp [Event.isFileEv_eq_false e (hA e he)]
  constructor
  · rw [List.filter_append, h1, h2, List.append_nil]
  · rw [List.filter_append, h3, h4, List.nil_append]

end CTS




namespace CTS

theorem mapGet_createWatcher_self (m : WMap) (p : Path) (cb : Callback) :
    mapGet (createWatcher m p cb) p = some ((mapGet m p).getD [] ++ [cb]) := by
  unfold createWatcher
  exact mapGet_mapSet_self _ _ _

/-! ### Claim theorems -/

/-- C1 counterexample: with recursive watchers `0, 1, 2` on `/`, `/a`,
`/a/b` and non-recursive watchers `3, 4, 5` on the same paths, writing
`/a/b/c.txt` invokes only `5` (non-recursive on `/a/b`), `2` and `1`
(recursive on `/a/b` and `/a`): the recursive watcher `0` registered on the
root `/` is never invoked, contrary to the claim. -/
theorem c1_counterexample :
    invokeDirectoryWatchers [("/", [3]), ("/a", [4]), ("/a/b", [5])]
        [("/", [0]), ("/a", [1]), ("/a/b", [2])] "/a/b/c.txt"
      = [Event.dirEvent 5 "/a/b/c.txt", Event.dirEvent 2 "/a/b/c.txt",
         Event.dirEvent 1 "/a/b/c.txt"]
    ∧ Event.dirEvent 0 "/a/b/c.txt" ∉
        invokeDirectoryWatchers [("/", [3]), ("/a", [4]), ("/a/b", [5])]
          [("/", [0]), ("/a", [1]), ("/a/b", [2])] "/a/b/c.txt" := by
  constructor
  · rfl
  · decide

/-- C1 (amended): writing `/a/b/c.txt` invokes every recursive watcher
registered on the proper ancestors `/a/b` and `/a` — the walk stops at the
root, whose recursive watchers are *not* invoked — and every non-recursive
watcher registered exactly on `/a/b`, but no non-recursive watcher on `/a`
or `/`.  The trace lists exactly the invoked watchers, so the watchers
`a`, `d`, `e` (recursive on `/`, non-recursive on `/` and `/a`) are absent
from it. -/
theorem c1_ancestor_walk (a b c d e f : Callback) :
    invokeDirectoryWatchers [("/", [d]), ("/a", [e]), ("/a/b", [f])]
        [("/", [a]), ("/a", [b]), ("/a/b", [c])] "/a/b/c.txt"
      = [Event.dirEvent f "/a/b/c.txt", Event.dirEvent c "/a/b/c.txt",
         Event.dirEvent b "/a/b/c.txt"] := rfl

/-- C2 counterexample: the identical callback value `7` registered twice on
path `p` by two separate watch calls; calling `close()` on one handle
filters the list by callback identity, so *both* registrations vanish, the
entry is pruned, and a subsequent notification for `p` invokes nothing —
contrary to the claim that the other registration remains active. -/
theorem c2_counterexample :
    closeWatcher (createWatcher (createWatcher [] "p" 7) "p" 7) "p" 7 = []
    ∧ invokeFileWatchers
        (closeWatcher (createWatcher (createWatcher [] "p" 7) "p" 7) "p" 7)
        "p" .Changed = [] := by
  constructor
  · rfl
  · rfl

/-- C2 (amended): two registrations on the same path with *distinct*
callback values are independently closable — closing the first leaves the
second active and invoked by subsequent notifications; but `close()` removes
*every* registration of its callback's identity on the path, so the
identical callback registered twice is removed entirely by one `close()`. -/
theorem c2_close_identity (m : WMap) (p : Path) (a b : Callback)
    (ev : FileWatcherEventKind) (hab : a ≠ b) :
    Event.fileEvent b p ev ∈
      invokeFileWatchers
        (closeWatcher (createWatcher (createWatcher m p a) p b) p a) p ev
    ∧ ∀ (w : WMap),
        Event.fileEvent a p ev ∉ invokeFileWatchers (closeWatcher w p a) p ev := by
  constructor
  · have h2 : mapGet (createWatcher (createWatcher m p a) p b) p
        = some (((mapGet m p).getD [] ++ [a]) ++ [b]) := by
      rw [mapGet_createWatcher_self, mapGet_createWatcher_self]
      simp
    have hmem : b ∈ ((((mapGet m p).getD [] ++ [a]) ++ [b]).filter
        (fun w => w ≠ a)) := by
      refine List.mem_filter.mpr ⟨by simp, ?_⟩
      simp [Ne.symm hab]
    simp only [closeWatcher, h2, Option.getD_some]
    split
    · unfold invokeFileWatchers
      rw [mapGet_mapSet_self]
      exact List.mem_map.mpr ⟨b, hmem, rfl⟩
    · rename_i hlen
      exact absurd (List.length_pos.mpr (List.ne_nil_of_mem hmem)) hlen
  · intro w
    simp only [closeWatcher]
    split
    · unfold invokeFileWatchers
      rw [mapGet_mapSet_self]
      intro hmem
      obtain ⟨cb, hcb, heq⟩ := List.mem_map.mp hmem
      have hcba : cb = a := by injection heq
      rw [hcba] at hcb
      simpa using (List.mem_filter.mp hcb).2
    · unfold invokeFileWatchers
      rw [mapGet_mapDelete_self]
      simp

/-- C2 witness: the amended statement at the concrete registry `[]`, path
`"p"`, callbacks `0 ≠ 1`. -/
theorem c2_close_identity_witness :
    Event.fileEvent 1 "p" .Changed ∈
      invokeFileWatchers
        (closeWatcher (createWatcher (createWatcher [] "p" 0) "p" 1) "p" 0)
        "p" .Changed
    ∧ ∀ (w : WMap),
        Event.fileEvent 0 "p" .Changed ∉
          invokeFileWatchers (closeWatcher w "p" 0) "p" .Changed :=
  c2_close_identity [] "p" 0 1 .Changed (by decide)

end CTS

namespace CTS

/-- The empty deferred-task queue. -/
def emptyQueue : QueueState := ⟨[], [], 0, [], false⟩

/-- C3 counterexample: schedule one task (id `0`) whose callback throws; run
one turn of the event loop.  The callback has begun executing (indeed has
thrown — `fired = [0]`), yet `0` is still a member of the pending set,
because the code deletes the id *after* the callback call, a line a thrown
exception skips.  The claim says a task whose callback has thrown is no
longer a member of the pending set. -/
theorem c3_counterexample :
    (run 1 (schedule emptyQueue (.mk [] true)).1).fired = [0]
    ∧ (run 1 (schedule emptyQueue (.mk [] true)).1).timeoutCallbacks = [0] := by
  constructor
  · rfl
  · rfl

/-- C3 (amended): `schedule` adds the taskId to the pending set; the taskId
is removed immediately *after* the scheduled callback finishes normally, so
a task whose callback completed is no longer a member, while one whose
callback threw is still a member of the pending set (the tasks the callback
scheduled before throwing are pending too). -/
theorem c3_pending_set :
    (∀ (q : QueueState) (spec : TaskSpec),
        (schedule q spec).2 ∈ (schedule q spec).1.timeoutCallbacks)
    ∧ (∀ (q : QueueState) (id : Nat) (spec : TaskSpec),
        spec.throws = false →
          id ∉ (runTaskWrapper q id spec).timeoutCallbacks)
    ∧ (∀ (q : QueueState) (id : Nat) (spec : TaskSpec),
        spec.throws = true → id ∈ q.timeoutCallbacks →
          id ∈ (runTaskWrapper q id spec).timeoutCallbacks) := by
  refine ⟨?_, ?_, ?_⟩
  · intro q spec
    simp only [schedule, setAdd]
    split
    · assumption
    · exact List.mem_append_right _ (by simp)
  · intro q id spec h
    simp only [runTaskWrapper, h, if_neg, Bool.false_eq_true,
      not_false_eq_true, setDelete]
    intro hmem
    simpa using (List.mem_filter.mp hmem).2
  · intro q id spec h hq
    simp only [runTaskWrapper, h, if_pos]
    exact scheduleAll_mem_timeoutCallbacks _ _ _ hq

/-- C4 counterexample: path `"a"` is marked deleted and has file watcher `5`;
`setModifiedTime` fires the file `Changed` notification for `"a"`, yet the
deleted marker is still `true` afterwards — `setModifiedTime` calls
`invokeFileWatchers` directly and never touches `deletedFiles`, contrary to
the claim that firing "changed" sets the marker to false at that instant. -/
theorem c4_counterexample :
    (setModifiedTime ⟨[("a", [5])], [], [], [("a", true)]⟩ "a").2
      = [Event.fileEvent 5 "a" .Changed]
    ∧ mapGetD (setModifiedTime ⟨[("a", [5])], [], [], [("a", true)]⟩ "a").1.deletedFiles
        "a" false = true := by
  constructor
  · rfl
  · rfl

/-- C4 (amended): the deleted marker flips to false when `invokeFileChanged`
fires a `Created` notification for a deleted-marked path; `setModifiedTime`,
however, fires its file `Changed` notification directly, bypassing the
deleted-file tracker, so the marker keeps whatever value it had — in
particular it stays `true` on a deleted-marked path. -/
theorem c4_deleted_marker :
    (∀ (s : SysState) (p : Path),
        mapGetD s.deletedFiles p false = true →
          mapGetD (invokeFileChanged s p).1.deletedFiles p false = false
          ∧ (invokeFileChanged s p).2
              = invokeDirectoryWatchers s.directoryWatchersMap
                  s.recursiveDirectoryWatchersMap p
                ++ invokeFileWatchers s.fileWatchersMap p .Created)
    ∧ (∀ (s : SysState) (p : Path),
        (setModifiedTime s p).1.deletedFiles = s.deletedFiles) := by
  constructor
  · intro s p h
    simp only [mapGetD] at h
    constructor
    · simp only [invokeFileChanged, normalizePath, mapGetD, h, if_pos,
        mapGet_mapSet_self, Option.getD_some]
    · simp only [invokeFileChanged, normalizePath, mapGetD, h, if_pos]
  · intro s p
    rfl

end CTS

namespace CTS

/-- C5: a write to a path whose deleted marker is unset fires the file
`Changed` notification; a write while the marker is set fires `Created`
(once, for that write) and clears the marker, so the immediately following
write to the same path fires `Changed` again; and in every case the trace
begins with the unconditional directory notification. -/
theorem c5_write_notifications :
    ∀ (s : SysState) (p : Path),
      (mapGetD s.deletedFiles p false = false →
        (writeFile s p).2
          = invokeDirectoryWatchers s.directoryWatchersMap
              s.recursiveDirectoryWatchersMap p
            ++ invokeFileWatchers s.fileWatchersMap p .Changed)
      ∧ (mapGetD s.deletedFiles p false = true →
          (writeFile s p).2
            = invokeDirectoryWatchers s.directoryWatchersMap
                s.recursiveDirectoryWatchersMap p
              ++ invokeFileWatchers s.fileWatchersMap p .Created
          ∧ mapGetD (writeFile s p).1.deletedFiles p false = false
          ∧ (writeFile (writeFile s p).1 p).2
              = invokeDirectoryWatchers s.directoryWatchersMap
                  s.recursiveDirectoryWatchersMap p
                ++ invokeFileWatchers s.fileWatchersMap p .Changed) := by
  intro s p
  constructor
  · intro h
    simp only [mapGetD] at h
    simp [writeFile, invokeFileChanged, normalizePath, mapGetD, h]
  · intro h
    simp only [mapGetD] at h
    refine ⟨?_, ?_, ?_⟩
    · simp [writeFile, invokeFileChanged, normalizePath, mapGetD, h]
    · simp [writeFile, invokeFileChanged, normalizePath, mapGetD, h,
        mapGet_mapSet_self]
    · simp [writeFile, invokeFileChanged, normalizePath, mapGetD, h,
        mapGet_mapSet_self]

/-- C6: the delete notification is idempotent — when the path is not marked
deleted, `invokeFileDeleted` fires one directory-notification pass plus the
file `Deleted` notification and sets the mark; when it is already marked, it
fires nothing and leaves the state untouched; hence the second of two
consecutive deletes always fires nothing. -/
theorem c6_delete_idempotent :
    ∀ (s : SysState) (p : Path),
      (mapGetD s.deletedFiles p false = false →
        (invokeFileDeleted s p).2
          = invokeDirectoryWatchers s.directoryWatchersMap
              s.recursiveDirectoryWatchersMap p
            ++ invokeFileWatchers s.fileWatchersMap p .Deleted
        ∧ mapGetD (invokeFileDeleted s p).1.deletedFiles p false = true)
      ∧ (mapGetD s.deletedFiles p false = true →
          (invokeFileDeleted s p).2 = [] ∧ (invokeFileDeleted s p).1 = s)
      ∧ (invokeFileDeleted (invokeFileDeleted s p).1 p).2 = [] := by
  intro s p
  refine ⟨?_, ?_, ?_⟩
  · intro h
    simp only [mapGetD] at h
    constructor
    · simp [invokeFileDeleted, normalizePath, mapGetD, h]
    · simp [invokeFileDeleted, normalizePath, mapGetD, h, mapGet_mapSet_self]
  · intro h
    simp only [mapGetD] at h
    constructor
    · simp [invokeFileDeleted, normalizePath, mapGetD, h]
    · simp [invokeFileDeleted, normalizePath, mapGetD, h]
  · cases h : (mapGet s.deletedFiles p).getD false with
    | true =>
      simp [invokeFileDeleted, normalizePath, mapGetD, h]
    | false =>
      simp [invokeFileDeleted, normalizePath, mapGetD, h, mapGet_mapSet_self]

end CTS

namespace CTS

def taskT3 : TaskSpec := .mk [] false

def taskT2 : TaskSpec := .mk [taskT3] false

def taskT1 : TaskSpec := .mk [taskT2] false

/-- The P5 run: schedule T1 (which schedules T2, which schedules T3), then
call `waitForQueued`. -/
def drainScenario : QueueState := startDrain (schedule emptyQueue taskT1).1

/-- C7: the drain resolves only at a turn where the pending set is observed
empty — a `step` (or the synchronous check at the call) that flips
`drainResolved` leaves an empty pending set; and in the chained scenario
T1 → T2 → T3 the drain stays unresolved through the five turns it takes T3
to fire (`fired = [0, 1, 2]`), resolving on turn six with the pending set
empty. -/
theorem c7_drain_until_empty :
    (∀ (q : QueueState), q.drainResolved = false →
        (step q).drainResolved = true → (step q).timeoutCallbacks = [])
    ∧ (∀ (q : QueueState), q.drainResolved = false →
        (startDrain q).drainResolved = true → q.timeoutCallbacks = [])
    ∧ (∀ k, k ≤ 5 → (run k drainScenario).drainResolved = false)
    ∧ (run 6 drainScenario).drainResolved = true
    ∧ (run 6 drainScenario).fired = [0, 1, 2]
    ∧ (run 6 drainScenario).timeoutCallbacks = [] := by
  refine ⟨?_, ?_, ?_, ?_, ?_, ?_⟩
  · intro q h0 h1
    cases hq : q.queue with
    | nil =>
      rw [show step q = q by simp [step, hq]] at h1
      rw [h0] at h1
      exact absurd h1 (by decide)
    | cons it rest =>
      cases it with
      | task id spec =>
        rw [show step q
            = runTaskWrapper { q with queue := rest, fired := q.fired ++ [id] }
                id spec by simp [step, hq]] at h1
        rw [runTaskWrapper_drainResolved] at h1
        rw [h0] at h1
        exact absurd h1 (by decide)
      | drainProbe =>
        by_cases he : q.timeoutCallbacks.isEmpty
        · rw [show step q = { q with queue := rest, drainResolved := true } by
            simp [step, hq, he]]
          exact List.isEmpty_iff.mp he
        · rw [show step q = { q with queue := rest ++ [QItem.drainProbe] } by
            simp [step, hq, he]] at h1
          rw [h0] at h1
          exact absurd h1 (by decide)
  · intro q h0 h1
    by_cases he : q.timeoutCallbacks.isEmpty
    · exact List.isEmpty_iff.mp he
    · rw [show startDrain q = { q with queue := q.queue ++ [QItem.drainProbe] }
        by simp [startDrain, he]] at h1
      rw [h0] at h1
      exact absurd h1 (by decide)
  · decide
  · rfl
  · rfl
  · rfl

/-- C8: a file notification invokes exactly the callbacks registered for the
path as of a snapshot taken before the pass begins, in registration order —
whatever mutations (`act`) the invoked callbacks perform on the registry
mid-pass are not observed by the pass — and registration appends to the
snapshot, preserving order. -/
theorem c8_notification_snapshot :
    (∀ (act : Callback → WMap → WMap) (m : WMap) (p : Path),
        (invokeFileWatchersReentrant act m p).2 = (mapGet m p).getD [])
    ∧ (∀ (m : WMap) (p : Path) (cb : Callback),
        mapGet (createWatcher m p cb) p
          = some ((mapGet m p).getD [] ++ [cb])) := by
  constructor
  · intro act m p
    unfold invokeFileWatchersReentrant
    cases hm : mapGet m p with
    | none => simp
    | some ws => simpa using foldlInvoke_snapshot act ws m []
  · intro m p cb
    exact mapGet_createWatcher_self m p cb

/-- C9 counterexample: a handle with no `watchFileSystem` property — an
unsupported shape — makes `getWatcher` read `.watcher` off `undefined`,
which faults with a `TypeError` instead of returning none. -/
theorem c9_counterexample :
    getWatcher (JSValue.obj []) = Except.error "TypeError" := rfl

/-- C9 (amended): provided the handle's `watchFileSystem` property is an
object, `getWatcher` returns the watcher found at `watchFileSystem.watcher`
if present (truthy), otherwise the value at `watchFileSystem.wfs.watcher` if
`wfs` is present, and otherwise none (`undefined`), without faulting; but
for a handle whose `watchFileSystem` is absent or `undefined`, the
unguarded property access faults with a `TypeError`. -/
theorem c9_get_watcher :
    (∀ (c f : List (String × JSValue)) (v : JSValue),
        mapGet c "watchFileSystem" = some (JSValue.obj f) →
        mapGet f "watcher" = some v → truthy v = true →
        getWatcher (JSValue.obj c) = Except.ok v)
    ∧ (∀ (c f g : List (String × JSValue)),
        mapGet c "watchFileSystem" = some (JSValue.obj f) →
        (mapGet f "watcher").getD JSValue.undef = JSValue.undef →
        mapGet f "wfs" = some (JSValue.obj g) →
        getWatcher (JSValue.obj c)
          = Except.ok ((mapGet g "watcher").getD JSValue.undef))
    ∧ (∀ (c f : List (String × JSValue)),
        mapGet c "watchFileSystem" = some (JSValue.obj f) →
        (mapGet f "watcher").getD JSValue.undef = JSValue.undef →
        (mapGet f "wfs").getD JSValue.undef = JSValue.undef →
        getWatcher (JSValue.obj c) = Except.ok JSValue.undef)
    ∧ (∀ (c : List (String × JSValue)),
        (mapGet c "watchFileSystem").getD JSValue.undef = JSValue.undef →
        getWatcher (JSValue.obj c) = Except.error "TypeError") := by
  refine ⟨?_, ?_, ?_, ?_⟩
  · intro c f v h1 h2 hv
    simp [getWatcher, getField, h1, h2, hv]
  · intro c f g h1 h2 h3
    simp [getWatcher, getField, h1, h2, h3, truthy]
  · intro c f h1 h2 h3
    simp [getWatcher, getField, h1, h2, h3, truthy]
  · intro c h1
    simp [getWatcher, getField, h1]

end CTS

namespace CTS

/-- C10: in both the change and the delete notification, every matching
directory watcher (non-recursive on the parent, recursive on the walked
ancestors) is invoked before any file watcher registered on the path itself:
each trace is its directory events followed by its file events, and the
directory part is exactly the directory-watcher pass (for the delete
notification, whenever it fires at all). -/
theorem c10_dir_watchers_first :
    ∀ (s : SysState) (p : Path),
      ((invokeFileChanged s p).2.filter Event.isDir
          ++ (invokeFileChanged s p).2.filter Event.isFileEv
        = (invokeFileChanged s p).2)
      ∧ ((invokeFileChanged s p).2.filter Event.isDir
          = invokeDirectoryWatchers s.directoryWatchersMap
              s.recursiveDirectoryWatchersMap p)
      ∧ ((invokeFileDeleted s p).2.filter Event.isDir
          ++ (invokeFileDeleted s p).2.filter Event.isFileEv
        = (invokeFileDeleted s p).2)
      ∧ (mapGetD s.deletedFiles p false = false →
          (invokeFileDeleted s p).2.filter Event.isDir
            = invokeDirectoryWatchers s.directoryWatchersMap
                s.recursiveDirectoryWatchersMap p) := by
  intro s p
  have hA : ∀ e ∈ invokeDirectoryWatchers s.directoryWatchersMap
      s.recursiveDirectoryWatchersMap p, e.isDir = true :=
    fun e he => invokeDirectoryWatchers_isDir _ _ _ e he
  have hsplit : ∀ (k : FileWatcherEventKind),
      ((invokeDirectoryWatchers s.directoryWatchersMap
          s.recursiveDirectoryWatchersMap p
        ++ invokeFileWatchers s.fileWatchersMap p k).filter Event.isDir
        = invokeDirectoryWatchers s.directoryWatchersMap
            s.recursiveDirectoryWatchersMap p)
      ∧ ((invokeDirectoryWatchers s.directoryWatchersMap
            s.recursiveDirectoryWatchersMap p
          ++ invokeFileWatchers s.fileWatchersMap p k).filter Event.isFileEv
          = invokeFileWatchers s.fileWatchersMap p k) :=
    fun k => filter_dir_file_split _ _ hA
      (fun e he => invokeFileWatchers_isFileEv _ _ _ e he)
  refine ⟨?_, ?_, ?_, ?_⟩
  · cases h : (mapGet s.deletedFiles p).getD false with
    | false =>
      have htr : (invokeFileChanged s p).2
          = invokeDirectoryWatchers s.directoryWatchersMap
              s.recursiveDirectoryWatchersMap p
            ++ invokeFileWatchers s.fileWatchersMap p .Changed := by
        simp [invokeFileChanged, normalizePath, mapGetD, h]
      rw [htr, (hsplit _).1, (hsplit _).2]
    | true =>
      have htr : (invokeFileChanged s p).2
          = invokeDirectoryWatchers s.directoryWatchersMap
              s.recursiveDirectoryWatchersMap p
            ++ invokeFileWatchers s.fileWatchersMap p .Created := by
        simp [invokeFileChanged, normalizePath, mapGetD, h]
      rw [htr, (hsplit _).1, (hsplit _).2]
  · cases h : (mapGet s.deletedFiles p).getD false with
    | false =>
      have htr : (invokeFileChanged s p).2
          = invokeDirectoryWatchers s.directoryWatchersMap
              s.recursiveDirectoryWatchersMap p
            ++ invokeFileWatchers s.fileWatchersMap p .Changed := by
        simp [invokeFileChanged, normalizePath, mapGetD, h]
      rw [htr, (hsplit _).1]
    | true =>
      have htr : (invokeFileChanged s p).2
          = invokeDirectoryWatchers s.directoryWatchersMap
              s.recursiveDirectoryWatchersMap p
            ++ invokeFileWatchers s.fileWatchersMap p .Created := by
        simp [invokeFileChanged, normalizePath, mapGetD, h]
      rw [htr, (hsplit _).1]
  · cases h : (mapGet s.deletedFiles p).getD false with
    | false =>
      have htr : (invokeFileDeleted s p).2
          = invokeDirectoryWatchers s.directoryWatchersMap
              s.recursiveDirectoryWatchersMap p
            ++ invokeFileWatchers s.fileWatchersMap p .Deleted := by
        simp [invokeFileDeleted, normalizePath, mapGetD, h]
      rw [htr, (hsplit _).1, (hsplit _).2]
    | true =>
      have htr : (invokeFileDeleted s p).2 = [] := by
        simp [invokeFileDeleted, normalizePath, mapGetD, h]
      rw [htr]
      rfl
  · intro h
    simp only [mapGetD] at h
    have htr : (invokeFileDeleted s p).2
        = invokeDirectoryWatchers s.directoryWatchersMap
            s.recursiveDirectoryWatchersMap p
          ++ invokeFileWatchers s.fileWatchersMap p .Deleted := by
      simp [invokeFileDeleted, normalizePath, mapGetD, h]
    rw [htr, (hsplit _).1]

end CTS
